import Mathlib

/-
  Verification development for the NDIS rostering platform
  (repository suamnbimali/thenew).

  The repository ships the Next.js admin frontend (TypeScript) together
  with the natural-language design of the two Python microservices
  (SCHADS Award Costing Engine and Worker-Shift Matching Engine).
  The TypeScript client contract in src/frontend-admin/src/lib/api.ts is
  embedded directly; the Python engine bodies are not part of the
  shipped sources, so they are modelled from the specification
  (sections 3, 4 and 7 of the design document), as marked on each
  definition.

  Money, hours and coordinates are modelled as rationals: the design
  keeps intermediate math at full precision and the 2-decimal rounding
  it prescribes is a presentation step, which we omit so that the
  arithmetic invariants are exact.
-/

namespace NDIS

/-! ## Client contract (from src/frontend-admin/src/lib/api.ts) -/

/-- Field list of the TypeScript interface SCHADSCalculationRequest
(api.ts lines 9-17): each entry is the field name paired with `true`
when the field is optional (declared with `?`). -/
def SCHADSCalculationRequestFields : List (String × Bool) :=
  [("base_hourly_rate", false),
   ("worker_level", false),
   ("start_time", false),
   ("end_time", false),
   ("is_sleepover", true),
   ("public_holiday", true),
   ("previous_shift_end", true)]

/-- Field list of the TypeScript interface SCHADSCalculationResponse
(api.ts lines 19-30): field name paired with `true` when optional. -/
def SCHADSCalculationResponseFields : List (String × Bool) :=
  [("total_hours", false),
   ("ordinary_hours", false),
   ("overtime_hours", false),
   ("shift_type", false),
   ("penalty_multipliers", false),
   ("breakdown", false),
   ("total_cost", false),
   ("min_break_required_hours", false),
   ("break_compliance", true),
   ("warnings", false)]

/-- Model of a fetch Response as seen by the client wrappers: the `ok`
flag, the `statusText`, and the value that `response.json()` yields. -/
structure HttpResponse (α : Type) where
  ok : Bool
  statusText : String
  json : α

/-- Embedding of `calculateSCHADS` (api.ts lines 73-89): on a non-ok
response it throws an Error built from the status text; on an ok
response it returns the parsed JSON body unchanged. -/
def calculateSCHADS {α : Type} (resp : HttpResponse α) : Except String α :=
  if resp.ok then Except.ok resp.json
  else Except.error ("SCHADS calculation failed: " ++ resp.statusText)

/-- Embedding of `matchWorkers` (api.ts lines 92-108): same shape as
`calculateSCHADS` with the matching-engine error message. -/
def matchWorkers {α : Type} (resp : HttpResponse α) : Except String α :=
  if resp.ok then Except.ok resp.json
  else Except.error ("Matching failed: " ++ resp.statusText)

/-! ## Award Costing Engine (modelled from the spec) -/

/-- Modelled from the spec: segment types produced by the Time & Shift
Normalizer (spec 4.1) — evening band, Saturday, Sunday and the
public-holiday override, plus unloaded ordinary time. The Python
engine source (backend/python-services/schads-engine/main.py) is not
among the shipped files. -/
inductive SegmentType
  | ordinary
  | evening
  | saturday
  | sunday
  | public_holiday
  deriving DecidableEq, Repr

/-- Display name of a segment type, used in the penalty breakdown. -/
def segName : SegmentType → String
  | .ordinary => "Ordinary"
  | .evening => "Evening"
  | .saturday => "Saturday"
  | .sunday => "Sunday"
  | .public_holiday => "Public Holiday"

/-- Modelled from the spec: one entry of the ordered penalty-segment
list of a CostBreakdown (spec section 3): name, rate multiplier and
hours. -/
structure PenaltySegment where
  name : String
  multiplier : ℚ
  hours : ℚ
  deriving DecidableEq, Repr

/-- Modelled from the spec: the immutable configuration record of the
costing engine (spec section 9 "configuration-as-data"): the penalty
multiplier table, the stacked overtime multiplier, the ordinary-hours
threshold and the minimum break. -/
structure SchadsConfig where
  evening_multiplier : ℚ
  saturday_multiplier : ℚ
  sunday_multiplier : ℚ
  public_holiday_multiplier : ℚ
  overtime_multiplier : ℚ
  ordinary_hours_threshold : ℚ
  min_break_required_hours : ℚ
  deriving DecidableEq, Repr

/-- Penalty-multiplier table lookup (ordinary time is unloaded). -/
def penaltyMult (cfg : SchadsConfig) : SegmentType → ℚ
  | .ordinary => 1
  | .evening => cfg.evening_multiplier
  | .saturday => cfg.saturday_multiplier
  | .sunday => cfg.sunday_multiplier
  | .public_holiday => cfg.public_holiday_multiplier

/-- Configuration validity (spec sections 4.2 and 7): every multiplier
loads the base rate (is at least 1) and the thresholds are
non-negative. -/
def validSchadsConfig (cfg : SchadsConfig) : Prop :=
  1 ≤ cfg.evening_multiplier ∧ 1 ≤ cfg.saturday_multiplier ∧
  1 ≤ cfg.sunday_multiplier ∧ 1 ≤ cfg.public_holiday_multiplier ∧
  1 ≤ cfg.overtime_multiplier ∧ 0 ≤ cfg.ordinary_hours_threshold ∧
  0 ≤ cfg.min_break_required_hours

instance (cfg : SchadsConfig) : Decidable (validSchadsConfig cfg) := by
  unfold validSchadsConfig; infer_instance

/-- Documented default configuration using the example figures of spec
4.2 and 4.3 (evening 1.125, Saturday 1.5, Sunday 1.75, public holiday
2.5, 10-hour minimum break). -/
def defaultSchadsConfig : SchadsConfig :=
  { evening_multiplier := 9/8
    saturday_multiplier := 3/2
    sunday_multiplier := 7/4
    public_holiday_multiplier := 5/2
    overtime_multiplier := 3/2
    ordinary_hours_threshold := 8
    min_break_required_hours := 10 }

/-- Modelled from the spec: the costing request (spec section 6, the
ShiftRequest subset of POST /calculate). Times are rational hours
counted from Monday 00:00 of the shift week; `public_holiday` records
whether the supplied holiday date matches the shift date; the
sleepover flat-allowance branch of spec 4.2 is left out because its
allowance value is unspecified configuration. -/
structure ShiftRequest where
  base_hourly_rate : ℚ
  worker_level : ℕ
  start_time : ℚ
  end_time : ℚ
  public_holiday : Bool
  previous_shift_end : Option ℚ
  deriving DecidableEq, Repr

/-- Modelled from the spec: the ValidationError taxonomy of spec
section 7 that the costing engine raises — `invalidRange` for
`end_time ≤ start_time` and `nonPositiveRate` for a non-positive
hourly rate. Both are ValidationErrors: the request is rejected
immediately with no partial computation. -/
inductive EngineError
  | invalidRange
  | nonPositiveRate
  deriving DecidableEq, Repr

/-- Modelled from the spec: the Time & Shift Normalizer (spec 4.1).
A public holiday tags the whole shift; otherwise the day of week of
the start time selects Saturday or Sunday, and a weekday shift is
split at the 18:00 evening boundary of its start day (the night band
is analogous configurable structure and is folded into the evening
band here). Produces the ordered `(segment_type, duration_hours)`
sequence. -/
def startDay (req : ShiftRequest) : ℤ := ⌊req.start_time / 24⌋

/-- Hours of a weekday shift falling before the 18:00 evening boundary
of its start day (spec 4.1). -/
def ordPart (req : ShiftRequest) : ℚ :=
  max 0 (min req.end_time ((startDay req : ℚ) * 24 + 18) - req.start_time)

def normalize (req : ShiftRequest) : List (SegmentType × ℚ) :=
  if req.public_holiday then
    [(SegmentType.public_holiday, req.end_time - req.start_time)]
  else if startDay req % 7 = 5 then
    [(SegmentType.saturday, req.end_time - req.start_time)]
  else if startDay req % 7 = 6 then
    [(SegmentType.sunday, req.end_time - req.start_time)]
  else
    (if 0 < ordPart req then [(SegmentType.ordinary, ordPart req)] else []) ++
    (if 0 < req.end_time - req.start_time - ordPart req then
      [(SegmentType.evening, req.end_time - req.start_time - ordPart req)] else [])

/-- Total hours of a normalized segment sequence. -/
def sumHours : List (SegmentType × ℚ) → ℚ
  | [] => 0
  | (_, h) :: rest => h + sumHours rest

/-- Modelled from the spec: the ordinary-hours threshold split of spec
4.2 — the first `allowance` hours of the sequence keep their
time-of-day multiplier, the remainder is overtime and carries the
overtime multiplier stacked multiplicatively on top. -/
def applyOvertime (cfg : SchadsConfig) : ℚ → List (SegmentType × ℚ) → List PenaltySegment
  | _, [] => []
  | a, (t, h) :: rest =>
    if h ≤ a then
      ⟨segName t, penaltyMult cfg t, h⟩ :: applyOvertime cfg (a - h) rest
    else
      (if 0 < a then [⟨segName t, penaltyMult cfg t, a⟩] else []) ++
      ⟨segName t ++ " (overtime)", penaltyMult cfg t * cfg.overtime_multiplier, h - a⟩ ::
      applyOvertime cfg 0 rest

/-- Weighted hours of a penalty-segment list: the sum over segments of
`multiplier * hours`; the total labor cost is the hourly rate times
this quantity (spec 4.2). -/
def segCost : List PenaltySegment → ℚ
  | [] => 0
  | s :: rest => s.multiplier * s.hours + segCost rest

/-- Modelled from the spec: the CostBreakdown record of spec section 3
(engine side; the client declares the same record with a
`break_compliance` field in api.ts). -/
structure CostBreakdown where
  total_hours : ℚ
  ordinary_hours : ℚ
  overtime_hours : ℚ
  penalty_multipliers : List PenaltySegment
  total_cost : ℚ
  min_break_required_hours : ℚ
  break_compliant : Bool
  warnings : List String
  deriving DecidableEq, Repr

/-- Modelled from the spec: the Break Compliance Checker (spec 4.3).
With no previous shift the check passes vacuously; otherwise the gap
to the new start is compared against the configured minimum and a
warning string is appended on violation — never an error. -/
def breakCompliance (cfg : SchadsConfig) (req : ShiftRequest) : Bool × List String :=
  match req.previous_shift_end with
  | none => (true, [])
  | some prev =>
    let gap := req.start_time - prev
    if cfg.min_break_required_hours ≤ gap then (true, [])
    else (false, ["Break compliance violation: gap since previous shift is below the minimum required break"])

/-- Success-path CostBreakdown of the costing engine (spec 4.1-4.3):
normalized segments, the ordinary/overtime threshold split, penalty
costing and the advisory break check. -/
def buildBreakdown (cfg : SchadsConfig) (req : ShiftRequest) : CostBreakdown :=
  { total_hours := req.end_time - req.start_time
    ordinary_hours := min (req.end_time - req.start_time) cfg.ordinary_hours_threshold
    overtime_hours := req.end_time - req.start_time -
      min (req.end_time - req.start_time) cfg.ordinary_hours_threshold
    penalty_multipliers := applyOvertime cfg cfg.ordinary_hours_threshold (normalize req)
    total_cost := req.base_hourly_rate *
      segCost (applyOvertime cfg cfg.ordinary_hours_threshold (normalize req))
    min_break_required_hours := cfg.min_break_required_hours
    break_compliant := (breakCompliance cfg req).1
    warnings := (breakCompliance cfg req).2 }

/-- Modelled from the spec: the Award Costing Engine POST /calculate
endpoint (spec sections 6 and 7): ValidationError checks first, with
no partial computation, then the costing pipeline. -/
def calculate (cfg : SchadsConfig) (req : ShiftRequest) : Except EngineError CostBreakdown :=
  if req.end_time ≤ req.start_time then Except.error EngineError.invalidRange
  else if req.base_hourly_rate ≤ 0 then Except.error EngineError.nonPositiveRate
  else Except.ok (buildBreakdown cfg req)

/-- Total cost of a request under a configuration, with 0 for a
rejected request; used to state monotonicity of the cost. -/
def costVal (cfg : SchadsConfig) (req : ShiftRequest) : ℚ :=
  match calculate cfg req with
  | Except.ok b => b.total_cost
  | Except.error _ => 0

/-! ## Worker-Shift Matching Engine (modelled from the spec) -/

/-- Training status values (src/frontend-admin/src/types, interface
Training). -/
inductive TrainingStatus
  | completed
  | in_progress
  | not_started
  deriving DecidableEq, Repr

/-- Certification record (src/frontend-admin/src/types, interface
Certification): a certification is valid iff its expiry date is absent
or not before the shift start (spec section 3). -/
structure CertificationRecord where
  certification_id : String
  expiry_date : Option ℚ
  deriving DecidableEq, Repr

/-- Training record (src/frontend-admin/src/types, interface Training):
satisfies a requirement iff its status is `completed`. -/
structure TrainingRecord where
  training_id : String
  status : TrainingStatus
  deriving DecidableEq, Repr

/-- Candidate worker profile (api.ts interface WorkerProfile): rate,
level, experience, optional coordinates, availability, certification
and training records, and an optional previous shift end used for the
advisory break check of spec 4.6. -/
structure WorkerProfile where
  worker_id : String
  hourly_rate : ℚ
  worker_level : ℕ
  experience_hours : ℚ
  location : Option (ℚ × ℚ)
  available : Bool
  certifications : List CertificationRecord
  trainings : List TrainingRecord
  previous_shift_end : Option ℚ
  deriving DecidableEq, Repr

/-- Shift requirements of a matching request (api.ts interface
MatchingRequest, shift_requirements): ids of required certifications
and trainings, shift times, and the participant's optional
coordinates. -/
structure ShiftRequirements where
  shift_id : String
  participant_location : Option (ℚ × ℚ)
  required_certifications : List String
  required_trainings : List String
  shift_start : ℚ
  shift_end : ℚ
  deriving DecidableEq, Repr

/-- Modelled from the spec: configuration of the matching engine — the
maximum travel distance, the experience ceiling, the minimum break for
advisory warnings, and the great-circle distance function of spec 4.4
(kept as a configuration field because its trigonometric formula is
not rational arithmetic; every theorem only assumes it is
non-negative). -/
structure MatchConfig where
  max_distance_km : ℚ
  experience_ceiling : ℚ
  min_break_required_hours : ℚ
  great_circle : ℚ × ℚ → ℚ × ℚ → ℚ

/-- Documented default matching configuration; the distance function
is a concrete non-negative surrogate for the great-circle formula. -/
def defaultMatchConfig : MatchConfig :=
  { max_distance_km := 50
    experience_ceiling := 1000
    min_break_required_hours := 10
    great_circle := fun a b => |a.1 - b.1| + |a.2 - b.2| }

/-- Modelled from the spec: estimated distance (spec 4.4) — computed
from worker and participant coordinates when both are present, and
treated as distance 0 (best case) when either is missing, rather than
rejecting the candidate. -/
def estimatedDistance (cfg : MatchConfig) (wloc ploc : Option (ℚ × ℚ)) : ℚ :=
  match wloc, ploc with
  | some w, some p => cfg.great_circle w p
  | _, _ => 0

/-- Certification validity at the shift start (spec section 3): valid
iff the expiry date is absent or at/after the shift start. -/
def certValid (shift_start : ℚ) (c : CertificationRecord) : Bool :=
  match c.expiry_date with
  | none => true
  | some d => shift_start ≤ d

/-- Whether the worker holds a currently valid certification with the
given id. -/
def hasValidCert (shift_start : ℚ) (w : WorkerProfile) (cid : String) : Bool :=
  w.certifications.any fun c => c.certification_id = cid && certValid shift_start c

/-- Whether the worker has completed the training with the given id. -/
def hasCompletedTraining (w : WorkerProfile) (tid : String) : Bool :=
  w.trainings.any fun t => t.training_id = tid && t.status = TrainingStatus.completed

/-- Modelled from the spec: the Eligibility Filter (spec 4.4) — a
candidate passes iff they are available, hold every required
certification valid at the shift start, have completed every required
training, and are within the maximum distance. -/
def isEligible (cfg : MatchConfig) (shift : ShiftRequirements) (w : WorkerProfile) : Bool :=
  w.available &&
  shift.required_certifications.all (hasValidCert shift.shift_start w) &&
  shift.required_trainings.all (hasCompletedTraining w) &&
  estimatedDistance cfg w.location shift.participant_location ≤ cfg.max_distance_km

/-- Fraction of a requirement list satisfied by a predicate, with 1
when nothing is required (spec 4.5). -/
def fractionSatisfied (req : List String) (p : String → Bool) : ℚ :=
  match req with
  | [] => 1
  | _ => (req.countP p : ℚ) / (req.length : ℚ)

/-- Clamp a rational to the unit interval. -/
def clamp01 (x : ℚ) : ℚ := max 0 (min x 1)

/-- Scoring weights record (spec 4.5). -/
structure Weights where
  certification : ℚ
  training : ℚ
  experience : ℚ
  distance : ℚ
  cost : ℚ
  deriving DecidableEq, Repr

/-- Fixed scorer weights: certification 0.40, training 0.20,
experience 0.20, distance 0.10, cost 0.10 (spec 4.5 and
src/README.md "Smart Matching Engine"). -/
def weights : Weights :=
  { certification := 2/5
    training := 1/5
    experience := 1/5
    distance := 1/10
    cost := 1/10 }

/-- Modelled from the spec: the WorkerScore record of spec section 3
— the five sub-scores, the weighted total, and the rate and distance
used for tie-breaking and display (the frontend reads `hourly_rate`
from ranked entries). -/
structure WorkerScore where
  worker_id : String
  certification_score : ℚ
  training_score : ℚ
  experience_score : ℚ
  distance_score : ℚ
  cost_score : ℚ
  total_score : ℚ
  hourly_rate : ℚ
  estimated_distance_km : ℚ
  compliance_warnings : List String
  deriving DecidableEq, Repr

/-- Modelled from the spec: the Weighted Scorer (spec 4.5) plus the
per-worker advisory warnings of spec 4.6. `cheapest` is the lowest
hourly rate in the eligible pool (cost is pool-relative). -/
def scoreWorker (cfg : MatchConfig) (shift : ShiftRequirements) (cheapest : ℚ)
    (w : WorkerProfile) : WorkerScore :=
  let cs := fractionSatisfied shift.required_certifications (hasValidCert shift.shift_start w)
  let ts := fractionSatisfied shift.required_trainings (hasCompletedTraining w)
  let es := min (w.experience_hours / cfg.experience_ceiling) 1
  let d := estimatedDistance cfg w.location shift.participant_location
  let ds := clamp01 (1 - d / cfg.max_distance_km)
  let ccs := cheapest / w.hourly_rate
  { worker_id := w.worker_id
    certification_score := cs
    training_score := ts
    experience_score := es
    distance_score := ds
    cost_score := ccs
    total_score := weights.certification * cs + weights.training * ts +
      weights.experience * es + weights.distance * ds + weights.cost * ccs
    hourly_rate := w.hourly_rate
    estimated_distance_km := d
    compliance_warnings :=
      match w.previous_shift_end with
      | none => []
      | some prev =>
        if cfg.min_break_required_hours ≤ shift.shift_start - prev then []
        else ["Break compliance: insufficient gap since previous shift"] }

/-- Lowest hourly rate of a candidate list (the pool-relative cost
anchor of spec 4.5); 1 on the empty list, where it is never used. -/
def minRate : List WorkerProfile → ℚ
  | [] => 1
  | [w] => w.hourly_rate
  | w :: w' :: ws => min w.hourly_rate (minRate (w' :: ws))

/-- Lexicographic sort key of the Ranker (spec 4.6): negated
total_score (higher score first), then estimated distance, hourly rate
and worker_id, each ascending. -/
def rankKey (a : WorkerScore) : ℚ ×ₗ ℚ ×ₗ ℚ ×ₗ String :=
  toLex (-a.total_score, toLex (a.estimated_distance_km, toLex (a.hourly_rate, a.worker_id)))

/-- Modelled from the spec: the ranking order of spec 4.6 — higher
total_score first, ties broken by lower estimated distance, then by
lower hourly rate, then by worker_id for full determinism. -/
def rankOrder (a b : WorkerScore) : Prop :=
  rankKey a ≤ rankKey b

instance : IsTrans WorkerScore rankOrder :=
  ⟨fun _ _ _ hab hbc => le_trans hab hbc⟩

instance : IsTotal WorkerScore rankOrder :=
  ⟨fun a b => le_total (rankKey a) (rankKey b)⟩

instance : DecidableRel rankOrder :=
  fun a b => inferInstanceAs (Decidable (rankKey a ≤ rankKey b))

/-- Modelled from the spec: the Ranker (spec 4.6) — a deterministic
sort of the scored pool by `rankOrder`. -/
def rank (l : List WorkerScore) : List WorkerScore :=
  List.insertionSort rankOrder l

/-- Modelled from the spec: the MatchResult record of spec section 3. -/
structure MatchResult where
  shift_id : String
  total_candidates : ℕ
  eligible_workers : ℕ
  ranked_matches : List WorkerScore
  weights : Weights
  max_distance_km : ℚ

/-- Modelled from the spec: the Matching Engine POST /match pipeline
(spec 4.4-4.6): eligibility filter, pool-relative cheapest rate,
weighted scoring, ranking, and the result counters. -/
def matchShift (cfg : MatchConfig) (shift : ShiftRequirements)
    (pool : List WorkerProfile) : MatchResult :=
  let eligible := pool.filter (isEligible cfg shift)
  let cheapest := minRate eligible
  let scores := eligible.map (scoreWorker cfg shift cheapest)
  { shift_id := shift.shift_id
    total_candidates := pool.length
    eligible_workers := eligible.length
    ranked_matches := rank scores
    weights := weights
    max_distance_km := cfg.max_distance_km }

/-! ## Lemmas about the costing pipeline -/

theorem sumHours_append (l1 l2 : List (SegmentType × ℚ)) :
    sumHours (l1 ++ l2) = sumHours l1 + sumHours l2 := by
  induction l1 with
  | nil => simp [sumHours]
  | cons s rest ih => obtain ⟨t, h⟩ := s; simp [sumHours, ih]; ring

theorem ordPart_nonneg (req : ShiftRequest) : 0 ≤ ordPart req := le_max_left _ _

theorem ordPart_le (req : ShiftRequest) (h : req.start_time < req.end_time) :
    ordPart req ≤ req.end_time - req.start_time := by
  unfold ordPart
  have h1 := min_le_left req.end_time ((startDay req : ℚ) * 24 + 18)
  exact max_le (by linarith) (by linarith)

theorem sumHours_normalize (req : ShiftRequest) (h : req.start_time < req.end_time) :
    sumHours (normalize req) = req.end_time - req.start_time := by
  have h0 := ordPart_nonneg req
  have h1 := ordPart_le req h
  unfold normalize
  split_ifs <;> simp [sumHours, sumHours_append] <;> linarith

theorem normalize_hours_pos (req : ShiftRequest) (h : req.start_time < req.end_time) :
    ∀ s ∈ normalize req, 0 < s.2 := by
  intro s hs
  unfold normalize at hs
  split_ifs at hs with hph hsat hsun hord heve
  · rw [List.mem_singleton] at hs; subst hs; exact sub_pos.mpr h
  · rw [List.mem_singleton] at hs; subst hs; exact sub_pos.mpr h
  · rw [List.mem_singleton] at hs; subst hs; exact sub_pos.mpr h
  · rcases List.mem_append.mp hs with hA | hB
    · rw [List.mem_singleton] at hA; subst hA; assumption
    · rw [List.mem_singleton] at hB; subst hB; assumption
  · rcases List.mem_append.mp hs with hA | hB
    · rw [List.mem_singleton] at hA; subst hA; assumption
    · exact absurd hB (List.not_mem_nil s)
  · rcases List.mem_append.mp hs with hA | hB
    · exact absurd hA (List.not_mem_nil s)
    · rw [List.mem_singleton] at hB; subst hB; assumption
  · rcases List.mem_append.mp hs with hA | hB
    · exact absurd hA (List.not_mem_nil s)
    · exact absurd hB (List.not_mem_nil s)

theorem one_le_penaltyMult (cfg : SchadsConfig) (hcfg : validSchadsConfig cfg)
    (t : SegmentType) : 1 ≤ penaltyMult cfg t := by
  obtain ⟨h1, h2, h3, h4, _, _, _⟩ := hcfg
  cases t <;> simp [penaltyMult] <;> assumption

theorem le_segCost_applyOvertime (cfg : SchadsConfig) (hcfg : validSchadsConfig cfg) :
    ∀ segs : List (SegmentType × ℚ), (∀ s ∈ segs, 0 ≤ s.2) →
    ∀ a : ℚ, 0 ≤ a → sumHours segs ≤ segCost (applyOvertime cfg a segs) := by
  intro segs
  induction segs with
  | nil => intro _ a _; simp [sumHours, applyOvertime, segCost]
  | cons s rest ih =>
    obtain ⟨t, h⟩ := s
    intro hpos a ha
    have hh : 0 ≤ h := hpos (t, h) (by simp)
    have hrest : ∀ s ∈ rest, 0 ≤ s.2 := fun s hs => hpos s (by simp [hs])
    have hm := one_le_penaltyMult cfg hcfg t
    have hot : 1 ≤ cfg.overtime_multiplier := hcfg.2.2.2.2.1
    by_cases hba : h ≤ a
    · simp only [applyOvertime, if_pos hba, segCost, sumHours]
      have := ih hrest (a - h) (by linarith)
      nlinarith
    · simp only [applyOvertime, if_neg hba, sumHours]
      have hah : a < h := not_le.mp hba
      have htail := ih hrest 0 le_rfl
      have k1 : a ≤ penaltyMult cfg t * a := le_mul_of_one_le_left ha hm
      have k2 : (1 : ℚ) ≤ penaltyMult cfg t * cfg.overtime_multiplier := by nlinarith
      have k3 : h - a ≤ penaltyMult cfg t * cfg.overtime_multiplier * (h - a) :=
        le_mul_of_one_le_left (by linarith) k2
      by_cases h0a : 0 < a
      · simp only [if_pos h0a, List.cons_append, List.nil_append, segCost]
        linarith
      · have ha0 : a = 0 := le_antisymm (not_lt.mp h0a) ha
        subst ha0
        simp only [if_neg h0a, List.nil_append, segCost]
        linarith

theorem calculate_ok (cfg : SchadsConfig) (req : ShiftRequest)
    (hrange : req.start_time < req.end_time) (hrate : 0 < req.base_hourly_rate) :
    calculate cfg req = Except.ok (buildBreakdown cfg req) := by
  unfold calculate
  rw [if_neg (not_le.mpr hrange), if_neg (not_le.mpr hrate)]

theorem costVal_eq (cfg : SchadsConfig) (req : ShiftRequest)
    (hrange : req.start_time < req.end_time) (hrate : 0 < req.base_hourly_rate) :
    costVal cfg req = req.base_hourly_rate *
      segCost (applyOvertime cfg cfg.ordinary_hours_threshold (normalize req)) := by
  unfold costVal
  rw [calculate_ok cfg req hrange hrate]
  rfl

/-! ## Claim theorems: costing engine -/


theorem penaltyMult_nonneg (cfg : SchadsConfig) (hcfg : validSchadsConfig cfg)
    (t : SegmentType) : 0 ≤ penaltyMult cfg t :=
  le_trans zero_le_one (one_le_penaltyMult cfg hcfg t)

theorem segCost_mono_mult (cfg cfg' : SchadsConfig)
    (hmono : ∀ t, penaltyMult cfg t ≤ penaltyMult cfg' t)
    (hot : cfg.overtime_multiplier ≤ cfg'.overtime_multiplier)
    (hm0 : ∀ t, 0 ≤ penaltyMult cfg t) (hot0 : 0 ≤ cfg.overtime_multiplier) :
    ∀ segs : List (SegmentType × ℚ), (∀ s ∈ segs, 0 ≤ s.2) →
    ∀ a : ℚ, 0 ≤ a →
    segCost (applyOvertime cfg a segs) ≤ segCost (applyOvertime cfg' a segs) := by
  intro segs
  induction segs with
  | nil => intro _ a _; simp [applyOvertime, segCost]
  | cons s rest ih =>
    obtain ⟨t, h⟩ := s
    intro hpos a ha
    have hh : 0 ≤ h := hpos (t, h) (by simp)
    have hrest : ∀ s ∈ rest, 0 ≤ s.2 := fun s hs => hpos s (by simp [hs])
    by_cases hba : h ≤ a
    · simp only [applyOvertime, if_pos hba, segCost]
      have h1 := ih hrest (a - h) (by linarith)
      have h2 := mul_le_mul_of_nonneg_right (hmono t) hh
      linarith
    · have hah : a < h := not_le.mp hba
      have htail := ih hrest 0 le_rfl
      have k1 : penaltyMult cfg t * a ≤ penaltyMult cfg' t * a :=
        mul_le_mul_of_nonneg_right (hmono t) ha
      have k2 : penaltyMult cfg t * cfg.overtime_multiplier ≤
          penaltyMult cfg' t * cfg'.overtime_multiplier :=
        mul_le_mul (hmono t) hot hot0 (le_trans (hm0 t) (hmono t))
      have k3 : penaltyMult cfg t * cfg.overtime_multiplier * (h - a) ≤
          penaltyMult cfg' t * cfg'.overtime_multiplier * (h - a) :=
        mul_le_mul_of_nonneg_right k2 (by linarith)
      by_cases h0a : 0 < a
      · simp only [applyOvertime, if_neg hba, if_pos h0a, List.cons_append,
          List.nil_append, segCost]
        linarith
      · simp only [applyOvertime, if_neg hba, if_neg h0a, List.nil_append, segCost]
        linarith

theorem segCost_anti_allowance (cfg : SchadsConfig)
    (hm : ∀ t, 1 ≤ penaltyMult cfg t) (hot : 1 ≤ cfg.overtime_multiplier) :
    ∀ segs : List (SegmentType × ℚ), (∀ s ∈ segs, 0 ≤ s.2) →
    ∀ a a' : ℚ, 0 ≤ a' → a' ≤ a →
    segCost (applyOvertime cfg a segs) ≤ segCost (applyOvertime cfg a' segs) := by
  intro segs
  induction segs with
  | nil => intro _ a a' _ _; simp [applyOvertime, segCost]
  | cons s rest ih =>
    obtain ⟨t, h⟩ := s
    intro hpos a a' ha' haa
    have ha : 0 ≤ a := le_trans ha' haa
    have hh : 0 ≤ h := hpos (t, h) (by simp)
    have hrest : ∀ s ∈ rest, 0 ≤ s.2 := fun s hs => hpos s (by simp [hs])
    have hm0 : 0 ≤ penaltyMult cfg t := le_trans zero_le_one (hm t)
    have hot0 : (0 : ℚ) ≤ cfg.overtime_multiplier - 1 := by linarith
    by_cases h1 : h ≤ a'
    · have h2 : h ≤ a := le_trans h1 haa
      simp only [applyOvertime, if_pos h1, if_pos h2, segCost]
      have := ih hrest (a - h) (a' - h) (by linarith) (by linarith)
      linarith
    · by_cases h2 : h ≤ a
      · simp only [applyOvertime, if_pos h2, if_neg h1, segCost]
        have htail := ih hrest (a - h) 0 le_rfl (by linarith)
        have k4 : penaltyMult cfg t * h ≤ penaltyMult cfg t * a' +
            penaltyMult cfg t * cfg.overtime_multiplier * (h - a') := by
          nlinarith [mul_nonneg (mul_nonneg hm0 (by linarith : (0:ℚ) ≤ h - a')) hot0]
        by_cases h0a' : 0 < a'
        · simp only [if_pos h0a', List.cons_append, List.nil_append, segCost]
          linarith
        · have ha'0 : a' = 0 := le_antisymm (not_lt.mp h0a') ha'
          subst ha'0
          simp only [if_neg h0a', List.nil_append, segCost]
          linarith
      · simp only [applyOvertime, if_neg h1, if_neg h2, segCost]
        have k5 : penaltyMult cfg t * a + penaltyMult cfg t * cfg.overtime_multiplier * (h - a) ≤
            penaltyMult cfg t * a' + penaltyMult cfg t * cfg.overtime_multiplier * (h - a') := by
          nlinarith [mul_nonneg (mul_nonneg hm0 (by linarith : (0:ℚ) ≤ a - a')) hot0]
        by_cases h0a : 0 < a
        · by_cases h0a' : 0 < a'
          · simp only [if_pos h0a, if_pos h0a', List.cons_append, List.nil_append, segCost]
            linarith
          · have ha'0 : a' = 0 := le_antisymm (not_lt.mp h0a') ha'
            subst ha'0
            simp only [if_pos h0a, if_neg h0a', List.cons_append, List.nil_append, segCost]
            linarith
        · have ha0 : a = 0 := le_antisymm (not_lt.mp h0a) ha
          subst ha0
          have ha'0 : a' = 0 := le_antisymm (by linarith) ha'
          subst ha'0
          simp only [if_neg h0a, List.nil_append, segCost]
          linarith

theorem applyOvertime_update_threshold (cfg : SchadsConfig) (thr' : ℚ) :
    ∀ (a : ℚ) (segs : List (SegmentType × ℚ)),
    applyOvertime { cfg with ordinary_hours_threshold := thr' } a segs =
      applyOvertime cfg a segs := by
  intro a segs
  induction segs generalizing a with
  | nil => simp [applyOvertime]
  | cons s rest ih =>
    obtain ⟨t, h⟩ := s
    cases t <;> simp [applyOvertime, ih, penaltyMult]

/-- Claim C9: for every input with end_time ≤ start_time, the costing engine
fails with InvalidRangeError (a ValidationError): it rejects the
request immediately with no partial computation and no partial
result. -/
theorem c9_invalid_range_rejected (cfg : SchadsConfig) (req : ShiftRequest)
    (h : req.end_time ≤ req.start_time) :
    calculate cfg req = Except.error EngineError.invalidRange := by
  unfold calculate
  rw [if_pos h]

theorem c9_witness :
    calculate defaultSchadsConfig
      { base_hourly_rate := 30, worker_level := 1, start_time := 10, end_time := 9,
        public_holiday := false, previous_shift_end := none } =
      Except.error EngineError.invalidRange :=
  c9_invalid_range_rejected _ _ (by norm_num)

/-- Claim C3: for every valid shift, the CostBreakdown satisfies
ordinary_hours + overtime_hours = total_hours (exactly, so within any
floating tolerance) and total_cost is at least the base rate times the
total hours. -/
theorem c3_costbreakdown_invariants (cfg : SchadsConfig) (req : ShiftRequest)
    (b : CostBreakdown) (hcfg : validSchadsConfig cfg)
    (hrange : req.start_time < req.end_time) (hrate : 0 < req.base_hourly_rate)
    (hok : calculate cfg req = Except.ok b) :
    b.ordinary_hours + b.overtime_hours = b.total_hours ∧
    req.base_hourly_rate * b.total_hours ≤ b.total_cost := by
  rw [calculate_ok cfg req hrange hrate] at hok
  have hb : b = buildBreakdown cfg req := by
    cases hok; rfl
  subst hb
  constructor
  · simp only [buildBreakdown]; ring
  · simp only [buildBreakdown]
    have hseg := le_segCost_applyOvertime cfg hcfg (normalize req)
      (fun s hs => (normalize_hours_pos req hrange s hs).le)
      cfg.ordinary_hours_threshold hcfg.2.2.2.2.2.1
    rw [sumHours_normalize req hrange] at hseg
    exact mul_le_mul_of_nonneg_left hseg hrate.le

theorem c3_witness :
    calculate defaultSchadsConfig
      { base_hourly_rate := 30, worker_level := 1, start_time := 9, end_time := 17,
        public_holiday := false, previous_shift_end := none } =
      Except.ok
        { total_hours := 8, ordinary_hours := 8, overtime_hours := 0,
          penalty_multipliers := [{ name := "Ordinary", multiplier := 1, hours := 8 }],
          total_cost := 240, min_break_required_hours := 10,
          break_compliant := true, warnings := [] } ∧
    (8 : ℚ) + 0 = 8 ∧ (30 : ℚ) * 8 ≤ 240 := by
  have hc : calculate defaultSchadsConfig
      { base_hourly_rate := 30, worker_level := 1, start_time := 9, end_time := 17,
        public_holiday := false, previous_shift_end := none } =
      Except.ok
        { total_hours := 8, ordinary_hours := 8, overtime_hours := 0,
          penalty_multipliers := [{ name := "Ordinary", multiplier := 1, hours := 8 }],
          total_cost := 240, min_break_required_hours := 10,
          break_compliant := true, warnings := [] } := by
    rw [calculate_ok _ _ (by norm_num) (by norm_num)]
    norm_num [buildBreakdown, normalize, ordPart, startDay, applyOvertime, segCost,
      penaltyMult, breakCompliance, defaultSchadsConfig, segName]
  refine ⟨hc, ?_⟩
  have := c3_costbreakdown_invariants defaultSchadsConfig
    { base_hourly_rate := 30, worker_level := 1, start_time := 9, end_time := 17,
      public_holiday := false, previous_shift_end := none }
    { total_hours := 8, ordinary_hours := 8, overtime_hours := 0,
      penalty_multipliers := [{ name := "Ordinary", multiplier := 1, hours := 8 }],
      total_cost := 240, min_break_required_hours := 10,
      break_compliant := true, warnings := [] }
    (by norm_num [validSchadsConfig, defaultSchadsConfig]) (by norm_num) (by norm_num) hc
  simpa using this

/-- Claim C7: total_cost is monotonically non-decreasing in the hourly rate,
in each penalty multiplier (the time-of-day table and the stacked
overtime multiplier), and in overtime_hours (obtained by lowering the
ordinary-hours threshold, which both raises overtime_hours and never
lowers the cost), holding the other inputs fixed. -/
theorem c7_total_cost_monotone (cfg : SchadsConfig) (req : ShiftRequest)
    (hcfg : validSchadsConfig cfg) (hrange : req.start_time < req.end_time)
    (hrate : 0 < req.base_hourly_rate) :
    (∀ r' : ℚ, req.base_hourly_rate ≤ r' →
      costVal cfg req ≤ costVal cfg { req with base_hourly_rate := r' }) ∧
    (∀ cfg' : SchadsConfig,
      cfg.evening_multiplier ≤ cfg'.evening_multiplier →
      cfg.saturday_multiplier ≤ cfg'.saturday_multiplier →
      cfg.sunday_multiplier ≤ cfg'.sunday_multiplier →
      cfg.public_holiday_multiplier ≤ cfg'.public_holiday_multiplier →
      cfg.overtime_multiplier ≤ cfg'.overtime_multiplier →
      cfg'.ordinary_hours_threshold = cfg.ordinary_hours_threshold →
      costVal cfg req ≤ costVal cfg' req) ∧
    (∀ thr' : ℚ, 0 ≤ thr' → thr' ≤ cfg.ordinary_hours_threshold →
      (buildBreakdown cfg req).overtime_hours ≤
        (buildBreakdown { cfg with ordinary_hours_threshold := thr' } req).overtime_hours ∧
      costVal cfg req ≤ costVal { cfg with ordinary_hours_threshold := thr' } req) := by
  have hthr : 0 ≤ cfg.ordinary_hours_threshold := hcfg.2.2.2.2.2.1
  have hsegpos : ∀ s ∈ normalize req, 0 ≤ s.2 :=
    fun s hs => (normalize_hours_pos req hrange s hs).le
  have hS : 0 ≤ segCost (applyOvertime cfg cfg.ordinary_hours_threshold (normalize req)) := by
    have h1 := le_segCost_applyOvertime cfg hcfg (normalize req) hsegpos
      cfg.ordinary_hours_threshold hthr
    rw [sumHours_normalize req hrange] at h1
    linarith
  refine ⟨?_, ?_, ?_⟩
  · intro r' hr'
    rw [costVal_eq cfg req hrange hrate,
      costVal_eq cfg { req with base_hourly_rate := r' } hrange (lt_of_lt_of_le hrate hr')]
    exact mul_le_mul_of_nonneg_right hr' hS
  · intro cfg' he hsa hsu hph hot hthr'
    rw [costVal_eq cfg req hrange hrate, costVal_eq cfg' req hrange hrate, hthr']
    refine mul_le_mul_of_nonneg_left ?_ hrate.le
    refine segCost_mono_mult cfg cfg' ?_ hot
      (fun t => penaltyMult_nonneg cfg hcfg t) (by linarith [hcfg.2.2.2.2.1])
      (normalize req) hsegpos cfg.ordinary_hours_threshold hthr
    intro t
    cases t <;> simp [penaltyMult] <;> assumption
  · intro thr' h0 hle
    constructor
    · simp only [buildBreakdown]
      have hmin : min (req.end_time - req.start_time) thr' ≤
          min (req.end_time - req.start_time) cfg.ordinary_hours_threshold :=
        min_le_min le_rfl hle
      linarith
    · rw [costVal_eq cfg req hrange hrate,
        costVal_eq { cfg with ordinary_hours_threshold := thr' } req hrange hrate]
      have hproj : ({ cfg with ordinary_hours_threshold := thr' } :
          SchadsConfig).ordinary_hours_threshold = thr' := rfl
      rw [hproj, applyOvertime_update_threshold cfg thr']
      refine mul_le_mul_of_nonneg_left ?_ hrate.le
      exact segCost_anti_allowance cfg (one_le_penaltyMult cfg hcfg) hcfg.2.2.2.2.1
        (normalize req) hsegpos cfg.ordinary_hours_threshold thr' h0 hle

theorem c7_witness :
    costVal defaultSchadsConfig
      { base_hourly_rate := 30, worker_level := 1, start_time := 9, end_time := 23,
        public_holiday := false, previous_shift_end := none } ≤
      costVal defaultSchadsConfig
        { base_hourly_rate := 40, worker_level := 1, start_time := 9, end_time := 23,
          public_holiday := false, previous_shift_end := none } ∧
    costVal defaultSchadsConfig
      { base_hourly_rate := 30, worker_level := 1, start_time := 9, end_time := 23,
        public_holiday := false, previous_shift_end := none } ≤
      costVal { defaultSchadsConfig with evening_multiplier := 2 }
        { base_hourly_rate := 30, worker_level := 1, start_time := 9, end_time := 23,
          public_holiday := false, previous_shift_end := none } ∧
    costVal defaultSchadsConfig
      { base_hourly_rate := 30, worker_level := 1, start_time := 9, end_time := 23,
        public_holiday := false, previous_shift_end := none } ≤
      costVal { defaultSchadsConfig with ordinary_hours_threshold := 4 }
        { base_hourly_rate := 30, worker_level := 1, start_time := 9, end_time := 23,
          public_holiday := false, previous_shift_end := none } := by
  have h := c7_total_cost_monotone defaultSchadsConfig
    { base_hourly_rate := 30, worker_level := 1, start_time := 9, end_time := 23,
      public_holiday := false, previous_shift_end := none }
    (by norm_num [validSchadsConfig, defaultSchadsConfig]) (by norm_num) (by norm_num)
  exact ⟨h.1 40 (by norm_num),
    h.2.1 { defaultSchadsConfig with evening_multiplier := 2 }
      (by norm_num [defaultSchadsConfig]) le_rfl le_rfl le_rfl le_rfl rfl,
    (h.2.2 4 (by norm_num) (by norm_num [defaultSchadsConfig])).2⟩

/-! ## Lemmas about the matching pipeline -/

theorem matchShift_ranked (cfg : MatchConfig) (shift : ShiftRequirements)
    (pool : List WorkerProfile) :
    (matchShift cfg shift pool).ranked_matches =
      rank ((pool.filter (isEligible cfg shift)).map
        (scoreWorker cfg shift (minRate (pool.filter (isEligible cfg shift))))) := rfl

theorem minRate_le (l : List WorkerProfile) : ∀ w ∈ l, minRate l ≤ w.hourly_rate := by
  induction l with
  | nil => intro w hw; cases hw
  | cons x xs ih =>
    intro w hw
    cases xs with
    | nil =>
      rw [List.mem_singleton] at hw
      subst hw
      simp [minRate]
    | cons y ys =>
      rcases List.mem_cons.mp hw with rfl | hw'
      · simp only [minRate]
        exact min_le_left _ _
      · simp only [minRate]
        exact le_trans (min_le_right _ _) (ih w hw')

theorem minRate_pos (l : List WorkerProfile) (hl : ∀ w ∈ l, 0 < w.hourly_rate)
    (hne : l ≠ []) : 0 < minRate l := by
  induction l with
  | nil => exact absurd rfl hne
  | cons x xs ih =>
    cases xs with
    | nil => simpa [minRate] using hl x (by simp)
    | cons y ys =>
      have h1 : 0 < x.hourly_rate := hl x (by simp)
      have h2 : 0 < minRate (y :: ys) := ih (fun w hw => hl w (by simp [hw])) (by simp)
      simp only [minRate]
      exact lt_min h1 h2

theorem fractionSatisfied_bounds (req : List String) (p : String → Bool) :
    0 ≤ fractionSatisfied req p ∧ fractionSatisfied req p ≤ 1 := by
  unfold fractionSatisfied
  cases req with
  | nil => norm_num
  | cons x xs =>
    constructor
    · positivity
    · rw [div_le_one (by exact_mod_cast List.length_pos.mpr (List.cons_ne_nil x xs))]
      exact_mod_cast List.countP_le_length p

theorem clamp01_bounds (x : ℚ) : 0 ≤ clamp01 x ∧ clamp01 x ≤ 1 :=
  ⟨le_max_left _ _, max_le zero_le_one (min_le_right x 1)⟩

theorem estimatedDistance_nonneg (cfg : MatchConfig)
    (hgc : ∀ a b, 0 ≤ cfg.great_circle a b) (wl pl : Option (ℚ × ℚ)) :
    0 ≤ estimatedDistance cfg wl pl := by
  cases wl <;> cases pl <;> simp [estimatedDistance, hgc]

theorem weighted_sum_bounds (cs ts es ds ccs : ℚ)
    (h1 : 0 ≤ cs) (h1' : cs ≤ 1) (h2 : 0 ≤ ts) (h2' : ts ≤ 1)
    (h3 : 0 ≤ es) (h3' : es ≤ 1) (h4 : 0 ≤ ds) (h4' : ds ≤ 1)
    (h5 : 0 ≤ ccs) (h5' : ccs ≤ 1) :
    0 ≤ 2/5 * cs + 1/5 * ts + 1/5 * es + 1/10 * ds + 1/10 * ccs ∧
    2/5 * cs + 1/5 * ts + 1/5 * es + 1/10 * ds + 1/10 * ccs ≤ 1 := by
  constructor <;> linarith

theorem scoreWorker_bounds (cfg : MatchConfig) (shift : ShiftRequirements)
    (cheapest : ℚ) (w : WorkerProfile)
    (hceil : 0 < cfg.experience_ceiling)
    (hrate : 0 < w.hourly_rate) (hcheap : 0 < cheapest)
    (hch : cheapest ≤ w.hourly_rate) (hexp : 0 ≤ w.experience_hours) :
    (0 ≤ (scoreWorker cfg shift cheapest w).certification_score ∧
      (scoreWorker cfg shift cheapest w).certification_score ≤ 1) ∧
    (0 ≤ (scoreWorker cfg shift cheapest w).training_score ∧
      (scoreWorker cfg shift cheapest w).training_score ≤ 1) ∧
    (0 ≤ (scoreWorker cfg shift cheapest w).experience_score ∧
      (scoreWorker cfg shift cheapest w).experience_score ≤ 1) ∧
    (0 ≤ (scoreWorker cfg shift cheapest w).distance_score ∧
      (scoreWorker cfg shift cheapest w).distance_score ≤ 1) ∧
    (0 ≤ (scoreWorker cfg shift cheapest w).cost_score ∧
      (scoreWorker cfg shift cheapest w).cost_score ≤ 1) ∧
    (scoreWorker cfg shift cheapest w).total_score =
      weights.certification * (scoreWorker cfg shift cheapest w).certification_score +
      weights.training * (scoreWorker cfg shift cheapest w).training_score +
      weights.experience * (scoreWorker cfg shift cheapest w).experience_score +
      weights.distance * (scoreWorker cfg shift cheapest w).distance_score +
      weights.cost * (scoreWorker cfg shift cheapest w).cost_score ∧
    (0 ≤ (scoreWorker cfg shift cheapest w).total_score ∧
      (scoreWorker cfg shift cheapest w).total_score ≤ 1) := by
  have hcs := fractionSatisfied_bounds shift.required_certifications
    (hasValidCert shift.shift_start w)
  have hts := fractionSatisfied_bounds shift.required_trainings (hasCompletedTraining w)
  have hes : 0 ≤ min (w.experience_hours / cfg.experience_ceiling) 1 ∧
      min (w.experience_hours / cfg.experience_ceiling) 1 ≤ 1 :=
    ⟨le_min (div_nonneg hexp hceil.le) zero_le_one, min_le_right _ _⟩
  have hds := clamp01_bounds
    (1 - estimatedDistance cfg w.location shift.participant_location / cfg.max_distance_km)
  have hccs : 0 ≤ cheapest / w.hourly_rate ∧ cheapest / w.hourly_rate ≤ 1 :=
    ⟨div_nonneg hcheap.le hrate.le, (div_le_one hrate).mpr hch⟩
  exact ⟨hcs, hts, hes, hds, hccs, rfl,
    weighted_sum_bounds _ _ _ _ _ hcs.1 hcs.2 hts.1 hts.2 hes.1 hes.2
      hds.1 hds.2 hccs.1 hccs.2⟩

/-! ## Claim theorems: break compliance, matching and client -/

/-- Claim C8: when previous_shift_end is supplied, the engine sets
break_compliant to whether the gap reaches the configured minimum
break; a violation appends a warning string, yet the calculation still
completes and returns a full CostBreakdown — the warning is advisory
and never aborts the request. -/
theorem c8_break_compliance_advisory (cfg : SchadsConfig) (req : ShiftRequest) (prev : ℚ)
    (hp : req.previous_shift_end = some prev)
    (hrange : req.start_time < req.end_time) (hrate : 0 < req.base_hourly_rate) :
    ∃ b, calculate cfg req = Except.ok b ∧
      b.break_compliant = decide (cfg.min_break_required_hours ≤ req.start_time - prev) ∧
      (req.start_time - prev < cfg.min_break_required_hours → b.warnings ≠ []) := by
  refine ⟨buildBreakdown cfg req, calculate_ok cfg req hrange hrate, ?_, ?_⟩
  · simp only [buildBreakdown, breakCompliance, hp]
    by_cases hgap : cfg.min_break_required_hours ≤ req.start_time - prev
    · rw [if_pos hgap]
      simp [hgap]
    · rw [if_neg hgap]
      simp [hgap]
  · intro hlt
    simp only [buildBreakdown, breakCompliance, hp]
    rw [if_neg (not_le.mpr hlt)]
    simp

theorem c8_witness :
    ∃ b, calculate defaultSchadsConfig
        { base_hourly_rate := 30, worker_level := 1, start_time := 30, end_time := 38,
          public_holiday := false, previous_shift_end := some 26 } = Except.ok b ∧
      b.break_compliant =
        decide (defaultSchadsConfig.min_break_required_hours ≤ (30 : ℚ) - 26) ∧
      ((30 : ℚ) - 26 < defaultSchadsConfig.min_break_required_hours → b.warnings ≠ []) :=
  c8_break_compliance_advisory defaultSchadsConfig
    { base_hourly_rate := 30, worker_level := 1, start_time := 30, end_time := 38,
      public_holiday := false, previous_shift_end := some 26 }
    26 rfl (by norm_num) (by norm_num)

/-- Claim C2: a candidate with missing worker or participant coordinates
gets estimated distance 0 km (the best case): the distance filter can
then never reject them, and their distance sub-score is the best
possible 1 — the candidate is never excluded or distance-penalized
solely for missing location data. -/
theorem c2_missing_coordinates (cfg : MatchConfig) (shift : ShiftRequirements)
    (w : WorkerProfile) (cheapest : ℚ)
    (h : w.location = none ∨ shift.participant_location = none) :
    estimatedDistance cfg w.location shift.participant_location = 0 ∧
    (0 ≤ cfg.max_distance_km →
      isEligible cfg shift w =
        (w.available &&
         shift.required_certifications.all (hasValidCert shift.shift_start w) &&
         shift.required_trainings.all (hasCompletedTraining w))) ∧
    (0 < cfg.max_distance_km → (scoreWorker cfg shift cheapest w).distance_score = 1) := by
  have hd : estimatedDistance cfg w.location shift.participant_location = 0 := by
    rcases h with h | h
    · simp [estimatedDistance, h]
    · cases hl : w.location <;> simp [estimatedDistance, h, hl]
  refine ⟨hd, ?_, ?_⟩
  · intro hmax
    unfold isEligible
    rw [hd]
    simp [hmax]
  · intro hmax
    simp only [scoreWorker, hd]
    norm_num [clamp01]

theorem c2_witness :
    estimatedDistance defaultMatchConfig none (some ((0 : ℚ), (0 : ℚ))) = 0 ∧
    (scoreWorker defaultMatchConfig
      { shift_id := "s1", participant_location := some ((0 : ℚ), (0 : ℚ)),
        required_certifications := [], required_trainings := [],
        shift_start := 9, shift_end := 17 }
      1
      { worker_id := "w1", hourly_rate := 30, worker_level := 1, experience_hours := 100,
        location := none, available := true, certifications := [], trainings := [],
        previous_shift_end := none }).distance_score = 1 :=
  ⟨(c2_missing_coordinates defaultMatchConfig
      { shift_id := "s1", participant_location := some ((0 : ℚ), (0 : ℚ)),
        required_certifications := [], required_trainings := [],
        shift_start := 9, shift_end := 17 }
      { worker_id := "w1", hourly_rate := 30, worker_level := 1, experience_hours := 100,
        location := none, available := true, certifications := [], trainings := [],
        previous_shift_end := none }
      1 (Or.inl rfl)).1,
   (c2_missing_coordinates defaultMatchConfig
      { shift_id := "s1", participant_location := some ((0 : ℚ), (0 : ℚ)),
        required_certifications := [], required_trainings := [],
        shift_start := 9, shift_end := 17 }
      { worker_id := "w1", hourly_rate := 30, worker_level := 1, experience_hours := 100,
        location := none, available := true, certifications := [], trainings := [],
        previous_shift_end := none }
      1 (Or.inl rfl)).2.2 (by norm_num [defaultMatchConfig])⟩

/-- Claim C4: in every WorkerScore produced by the matcher, the five
sub-scores lie in [0,1]; the fixed weights are certification 0.40,
training 0.20, experience 0.20, distance 0.10, cost 0.10 and sum to
exactly 1; and total_score is the weighted sum of the sub-scores,
hence also lies in [0,1]. -/
theorem c4_weighted_scorer (cfg : MatchConfig) (shift : ShiftRequirements)
    (pool : List WorkerProfile)
    (hceil : 0 < cfg.experience_ceiling)
    (hpool : ∀ w ∈ pool, 0 < w.hourly_rate ∧ 0 ≤ w.experience_hours) :
    (weights.certification = 0.4 ∧ weights.training = 0.2 ∧ weights.experience = 0.2 ∧
     weights.distance = 0.1 ∧ weights.cost = 0.1 ∧
     weights.certification + weights.training + weights.experience +
       weights.distance + weights.cost = 1) ∧
    ∀ s ∈ (matchShift cfg shift pool).ranked_matches,
      (0 ≤ s.certification_score ∧ s.certification_score ≤ 1) ∧
      (0 ≤ s.training_score ∧ s.training_score ≤ 1) ∧
      (0 ≤ s.experience_score ∧ s.experience_score ≤ 1) ∧
      (0 ≤ s.distance_score ∧ s.distance_score ≤ 1) ∧
      (0 ≤ s.cost_score ∧ s.cost_score ≤ 1) ∧
      s.total_score = weights.certification * s.certification_score +
        weights.training * s.training_score + weights.experience * s.experience_score +
        weights.distance * s.distance_score + weights.cost * s.cost_score ∧
      (0 ≤ s.total_score ∧ s.total_score ≤ 1) := by
  refine ⟨⟨by norm_num [weights], by norm_num [weights], by norm_num [weights],
    by norm_num [weights], by norm_num [weights], by norm_num [weights]⟩, ?_⟩
  intro s hs
  rw [matchShift_ranked] at hs
  have hs' := (List.perm_insertionSort rankOrder _).mem_iff.mp hs
  obtain ⟨w, hwmem, rfl⟩ := List.mem_map.mp hs'
  have hwpool : w ∈ pool := List.mem_of_mem_filter hwmem
  have hfil : pool.filter (isEligible cfg shift) ≠ [] :=
    List.ne_nil_of_mem hwmem
  have hcheap : 0 < minRate (pool.filter (isEligible cfg shift)) :=
    minRate_pos _ (fun w' hw' => (hpool w' (List.mem_of_mem_filter hw')).1) hfil
  have hch := minRate_le (pool.filter (isEligible cfg shift)) w hwmem
  exact scoreWorker_bounds cfg shift _ w hceil (hpool w hwpool).1 hcheap hch
    (hpool w hwpool).2

theorem c4_witness :
    weights.certification = 0.4 ∧ weights.training = 0.2 ∧ weights.experience = 0.2 ∧
    weights.distance = 0.1 ∧ weights.cost = 0.1 ∧
    weights.certification + weights.training + weights.experience +
      weights.distance + weights.cost = 1 :=
  (c4_weighted_scorer defaultMatchConfig
    { shift_id := "s1", participant_location := none,
      required_certifications := [], required_trainings := [],
      shift_start := 9, shift_end := 17 }
    []
    (by norm_num [defaultMatchConfig]) (by intro w hw; cases hw)).1

/-- Claim C5: ranked_matches is always sorted by the ranking order — total
score descending, ties broken by lower estimated distance, then lower
hourly rate, then worker_id — and the matcher is a pure function, so
running it twice on identical input yields an identical ordered
list. -/
theorem c5_ranking_sorted_deterministic (cfg : MatchConfig) (shift : ShiftRequirements)
    (pool : List WorkerProfile) :
    (matchShift cfg shift pool).ranked_matches.Sorted rankOrder ∧
    (∀ a b : WorkerScore, rankOrder a b ↔
      (b.total_score < a.total_score ∨
        (a.total_score = b.total_score ∧
          (a.estimated_distance_km < b.estimated_distance_km ∨
            (a.estimated_distance_km = b.estimated_distance_km ∧
              (a.hourly_rate < b.hourly_rate ∨
                (a.hourly_rate = b.hourly_rate ∧ a.worker_id ≤ b.worker_id))))))) ∧
    matchShift cfg shift pool = matchShift cfg shift pool := by
  refine ⟨?_, ?_, rfl⟩
  · rw [matchShift_ranked]
    exact List.sorted_insertionSort rankOrder _
  · intro a b
    unfold rankOrder rankKey
    rw [Prod.Lex.le_iff, Prod.Lex.le_iff, Prod.Lex.le_iff]
    simp only [neg_lt_neg_iff, neg_inj]

/-- Claim C6: the eligibility filter hard-rejects a candidate exactly when
one of the four conditions holds (unavailable; a required
certification missing or expired at shift start; a required training
missing or not completed; distance above the maximum); total_candidates
counts the whole pool, while ranked_matches consists exactly of the
scores of the eligible workers — so a worker missing one required
certification never appears there. -/
theorem c6_eligibility_filter (cfg : MatchConfig) (shift : ShiftRequirements)
    (pool : List WorkerProfile) (w : WorkerProfile) :
    (isEligible cfg shift w = false ↔
      (w.available = false ∨
       (∃ cid ∈ shift.required_certifications, hasValidCert shift.shift_start w cid = false) ∨
       (∃ tid ∈ shift.required_trainings, hasCompletedTraining w tid = false) ∨
       cfg.max_distance_km < estimatedDistance cfg w.location shift.participant_location)) ∧
    (matchShift cfg shift pool).total_candidates = pool.length ∧
    (matchShift cfg shift pool).ranked_matches.Perm
      ((pool.filter (isEligible cfg shift)).map
        (scoreWorker cfg shift (minRate (pool.filter (isEligible cfg shift))))) ∧
    (∀ cid ∈ shift.required_certifications, hasValidCert shift.shift_start w cid = false →
      isEligible cfg shift w = false) := by
  have hiff : isEligible cfg shift w = false ↔
      (w.available = false ∨
       (∃ cid ∈ shift.required_certifications, hasValidCert shift.shift_start w cid = false) ∨
       (∃ tid ∈ shift.required_trainings, hasCompletedTraining w tid = false) ∨
       cfg.max_distance_km < estimatedDistance cfg w.location shift.participant_location) := by
    rw [Bool.eq_false_iff]
    simp only [isEligible, Ne, Bool.and_eq_true, List.all_eq_true, decide_eq_true_eq,
      not_and, not_forall, not_le, Bool.not_eq_true]
    constructor
    · intro hfun
      by_cases h1 : w.available = true
      · by_cases h2 : ∀ cid ∈ shift.required_certifications,
            hasValidCert shift.shift_start w cid = true
        · by_cases h3 : ∀ tid ∈ shift.required_trainings,
              hasCompletedTraining w tid = true
          · refine Or.inr (Or.inr (Or.inr ?_))
            have := hfun ⟨⟨h1, fun cid hcid => h2 cid hcid⟩, fun tid htid => h3 tid htid⟩
            exact this
          · push_neg at h3
            obtain ⟨tid, htid, hval⟩ := h3
            exact Or.inr (Or.inr (Or.inl ⟨tid, htid, Bool.not_eq_true _ ▸ hval⟩))
        · push_neg at h2
          obtain ⟨cid, hcid, hval⟩ := h2
          exact Or.inr (Or.inl ⟨cid, hcid, Bool.not_eq_true _ ▸ hval⟩)
      · exact Or.inl (Bool.not_eq_true _ ▸ h1)
    · rintro (h | ⟨cid, hcid, hval⟩ | ⟨tid, htid, hval⟩ | hdist) ⟨⟨h1, h2⟩, h3⟩
      · rw [h1] at h; cases h
      · have := h2 cid hcid; rw [this] at hval; cases hval
      · have := h3 tid htid; rw [this] at hval; cases hval
      · exact hdist
  refine ⟨hiff, rfl, ?_, ?_⟩
  · rw [matchShift_ranked]
    exact List.perm_insertionSort rankOrder _
  · intro cid hcid hcert
    exact hiff.mpr (Or.inr (Or.inl ⟨cid, hcid, hcert⟩))

/-- Claim C1 counterexample: the response record of the client contract for
POST /calculate declares no field named break_compliant — the claimed
required boolean break_compliant field is absent from
SCHADSCalculationResponse in api.ts. -/
theorem c1_counterexample :
    ¬ ("break_compliant" ∈ SCHADSCalculationResponseFields.map Prod.fst) := by
  decide

/-- Claim C1 (amended): POST /calculate accepts exactly base_hourly_rate,
worker_level, start_time, end_time and the optional is_sleepover,
public_holiday, previous_shift_end; the response record contains
total_hours, ordinary_hours, overtime_hours, the penalty_multipliers
list, total_cost, min_break_required_hours, an optional
break_compliance field (rather than a required boolean
break_compliant), and the warnings list of strings. -/
theorem c1_calculate_contract :
    SCHADSCalculationRequestFields.map Prod.fst =
      ["base_hourly_rate", "worker_level", "start_time", "end_time",
       "is_sleepover", "public_holiday", "previous_shift_end"] ∧
    (("base_hourly_rate", false) ∈ SCHADSCalculationRequestFields ∧
     ("worker_level", false) ∈ SCHADSCalculationRequestFields ∧
     ("start_time", false) ∈ SCHADSCalculationRequestFields ∧
     ("end_time", false) ∈ SCHADSCalculationRequestFields ∧
     ("is_sleepover", true) ∈ SCHADSCalculationRequestFields ∧
     ("public_holiday", true) ∈ SCHADSCalculationRequestFields ∧
     ("previous_shift_end", true) ∈ SCHADSCalculationRequestFields) ∧
    (("total_hours", false) ∈ SCHADSCalculationResponseFields ∧
     ("ordinary_hours", false) ∈ SCHADSCalculationResponseFields ∧
     ("overtime_hours", false) ∈ SCHADSCalculationResponseFields ∧
     ("penalty_multipliers", false) ∈ SCHADSCalculationResponseFields ∧
     ("total_cost", false) ∈ SCHADSCalculationResponseFields ∧
     ("min_break_required_hours", false) ∈ SCHADSCalculationResponseFields ∧
     ("break_compliance", true) ∈ SCHADSCalculationResponseFields ∧
     ("warnings", false) ∈ SCHADSCalculationResponseFields) := by
  refine ⟨rfl, ?_, ?_⟩ <;> decide

/-- Claim C10: for every response with ok = false, both client wrappers
return an Error whose message contains the response status text and
return no result; for every ok response they return exactly the parsed
JSON body — never a partial or ambiguous result. -/
theorem c10_client_wrappers {α : Type} (resp : HttpResponse α) :
    (resp.ok = false →
      calculateSCHADS resp =
        Except.error ("SCHADS calculation failed: " ++ resp.statusText) ∧
      matchWorkers resp = Except.error ("Matching failed: " ++ resp.statusText)) ∧
    (resp.ok = true →
      calculateSCHADS resp = Except.ok resp.json ∧
      matchWorkers resp = Except.ok resp.json) := by
  constructor <;> intro h <;> simp [calculateSCHADS, matchWorkers, h]

end NDIS
